import Mathlib

/-!
Verification of the immich Rust client library (takeout planner, filename
classifier, id validation, bulk pre-check, parallel upload engine and the
takeout uploader facade).

Strings are modelled as `List Char` (`Str`); the Rust `str` operations used
by the source (`ends_with`, `rfind`, `split_off`, `insert_str`, `replace`,
`contains`, `to_lowercase` on ASCII extensions) are embedded as structural
functions on `List Char`.  Byte indices returned by `rfind` always sit on
char boundaries for the one-byte characters `'('`, `')'` and `'.'` searched
for, so char-index splitting coincides with the source's byte splitting.
-/

abbrev Str := List Char

deriving instance DecidableEq for Except

/-- Index of the last occurrence of `c` in `l` (Rust `str::rfind` for a
one-byte character pattern, expressed as a char index). -/
def lastIdxOf (c : Char) : Str → Option Nat
  | [] => none
  | a :: as =>
    match lastIdxOf c as with
    | some i => some (i + 1)
    | none => if a = c then some 0 else none

/-- Rust `str::contains(pat)`: `pat` occurs as a contiguous substring. -/
def containsSub (pat : Str) (l : Str) : Bool :=
  (l.tails).any (fun t => pat.isPrefixOf t)

/-- Fuel-bounded core of Rust `str::replace`: each step either copies one
char or replaces one occurrence of `pat`, so `l.length` fuel always
suffices; the fuel only makes the recursion structural. -/
def replaceAllAux (pat rep : Str) : Nat → Str → Str
  | _, [] => []
  | 0, l => l
  | fuel + 1, c :: rest =>
    if pat ≠ [] ∧ pat.isPrefixOf (c :: rest) then
      rep ++ replaceAllAux pat rep fuel (rest.drop (pat.length - 1))
    else
      c :: replaceAllAux pat rep fuel rest

/-- Rust `str::replace(pat, rep)`: replace every non-overlapping occurrence
of `pat`, scanning left to right.  The source only calls it with non-empty
constant patterns. -/
def replaceAll (pat rep l : Str) : Str :=
  replaceAllAux pat rep l.length l

/-- `Filename::normalize_duplicates` from `src/takeout/file.rs`:
if the name ends with `')'`, split it at the last `'('`; when the remaining
prefix contains a `'.'`, re-insert the split-off parenthesised suffix right
before the last `'.'`; when it does not, the suffix is dropped with the
split and the bare prefix is returned. -/
def normalizeDuplicates (l : Str) : Str :=
  if l.getLast? = some ')' then
    match lastIdxOf '(' l with
    | some i =>
      let stem := l.take i
      let number := l.drop i
      match lastIdxOf '.' stem with
      | some j => stem.take j ++ number ++ stem.drop j
      | none => stem
    | none => l
  else l

/-- Error type of the `takeout` submodule (`src/takeout.rs`).  The payloads
carried by the source (`String` messages, IO sources) are irrelevant to the
claims and kept as plain strings / a unit marker. -/
inductive ParseError where
  | FileNameError (msg : Str)
  | FilePathError (msg : Str)
  | NoPhotoError (msg : Str)
  | InvalidType
  | InvalidMetadata (msg : Str)
  | Io
deriving DecidableEq, Repr

/-- Public error type (`src/utils.rs`).  Payload strings are kept abstractly. -/
inductive ImmichError where
  | Auth
  | Status (code : Nat) (body : Str)
  | Transport (msg : Str)
  | Io
  | InvalidUrl (msg : Str)
  | InvalidResponse
  | Multithread
  | InvalidDate
  | InvalidId
  | InvalidTakeoutArchive
deriving DecidableEq, Repr

/-- `impl From<ParseError> for ImmichError` (`src/utils.rs:152`): every
planner-local error crosses the public boundary as `InvalidTakeoutArchive`. -/
def immichErrorOfParseError (_e : ParseError) : ImmichError :=
  ImmichError.InvalidTakeoutArchive

/-- `FileType` from `src/takeout/file.rs`. -/
inductive FileType where
  | Metadata
  | Original
  | Edited
  | Unknown
deriving DecidableEq, Repr

/-- A tar entry path, modelled as its non-empty slash-separated components
(each component a `Str` without separators).  The claims only involve plain
relative paths, for which Rust's `Path` decomposition is the one embedded
below. -/
abbrev EntryPath := List Str

/-- Rust `Path::file_name` for a plain relative path: the last component. -/
def pathFileName (p : EntryPath) : Option Str :=
  p.getLast?

/-- Rust `path.parent().and_then(|q| q.file_name())` for a plain relative
path: the second-to-last component (`parent` of a single-component path is
the empty path, whose `file_name` is `None`). -/
def pathParentFileName (p : EntryPath) : Option Str :=
  p.dropLast.getLast?

/-- Rust `Path::extension` applied to a file name: the portion after the
last `'.'`, provided the part before that dot is non-empty; `None` when the
name has no dot or only a leading one. -/
def extOf (fname : Str) : Option Str :=
  match lastIdxOf '.' fname with
  | some i => if 0 < i then some (fname.drop (i + 1)) else none
  | none => none

/-- `Filename::MEDIA_EXTENSIONS` from `src/takeout/file.rs`. -/
def mediaExtensionList : List Str :=
  ["jpg".data, "jpeg".data, "png".data, "webp".data, "heic".data,
   "mp4".data, "m4v".data, "webm".data, "3gp".data, "gif".data]

/-- Rust `str::to_lowercase` restricted to the ASCII range, which is all the
source compares against (`MEDIA_EXTENSIONS` and `"json"` are ASCII). -/
def lowerAscii (l : Str) : Str :=
  l.map Char.toLower

/-- `impl TryFrom<&Cow<Path>> for FileType` (`src/takeout/file.rs:97`):
derive the kind from the lowercased extension; a media extension is `Edited`
when the file name contains the substring `edited`, else `Original`; other
extensions are `Unknown`; no extension is a `FileNameError`. -/
def fileTypeTryFrom (p : EntryPath) : Except ParseError FileType :=
  match (pathFileName p).bind extOf with
  | some ext =>
    let e := lowerAscii ext
    if e = "json".data then Except.ok FileType.Metadata
    else if mediaExtensionList.contains e then
      match pathFileName p with
      | some fname =>
        if containsSub "edited".data fname then Except.ok FileType.Edited
        else Except.ok FileType.Original
      | none =>
        Except.error (ParseError.FilePathError "Asset path must contain a filename".data)
    else Except.ok FileType.Unknown
  | none =>
    Except.error (ParseError.FileNameError "File does not have an extension".data)

/-- The canonical-name computation inside `Filename::try_from`: strip
`-edited`, then `.supplemental-metadata`, then `.json` (unconditional
substring replacement, in that order), then normalise duplicate suffixes. -/
def canonicalName (fname : Str) : Str :=
  normalizeDuplicates
    (replaceAll ".json".data []
      (replaceAll ".supplemental-metadata".data []
        (replaceAll "-edited".data [] fname)))

/-- `Filename` from `src/takeout/file.rs`. -/
structure Filename where
  name : Str
  album : Str
  filetype : FileType
deriving DecidableEq, Repr

/-- `impl TryFrom<&Entry> for Filename` (`src/takeout/file.rs:50`): classify
the path, then read the album from the parent directory's final component
and the canonical name from the stripped file name. -/
def filenameTryFrom (p : EntryPath) : Except ParseError Filename :=
  match fileTypeTryFrom p with
  | Except.error e => Except.error e
  | Except.ok filetype =>
    match pathParentFileName p with
    | none =>
      Except.error (ParseError.FilePathError "Asset path must contain an album name".data)
    | some album =>
      match pathFileName p with
      | none =>
        Except.error (ParseError.FilePathError "Asset path must contain a filename".data)
      | some fname =>
        Except.ok { name := canonicalName fname, album := album, filetype := filetype }

/-! ## Id validation (`src/utils.rs`) -/

/-- Rust `str::len`: the UTF-8 byte length. -/
def utf8Len (l : Str) : Nat :=
  (l.map Char.utf8Size).sum

/-- Rust `char::is_alphanumeric`.  Modelled by the ASCII alphanumeric test;
all strings appearing in the claims and scenarios are ASCII, where the two
predicates agree (non-ASCII Unicode alphanumerics are outside this model). -/
def rustIsAlphanumeric (c : Char) : Bool :=
  c.isAlphanum

/-- `Id::is_safe` (`src/utils.rs:169`): 36 bytes long, and every char is
alphanumeric, or is `'-'` standing at char position 8, 13, 18 or 23. -/
def idIsSafe (l : Str) : Bool :=
  if utf8Len l ≠ 36 then false
  else l.enum.all fun ic =>
    rustIsAlphanumeric ic.2
      || (ic.1 == 8 && ic.2 == '-')
      || (ic.1 == 13 && ic.2 == '-')
      || (ic.1 == 18 && ic.2 == '-')
      || (ic.1 == 23 && ic.2 == '-')

/-- Opaque id (`Id` in `src/utils.rs`; named `ImmichId` here because Lean's
core already takes the name `Id`). -/
structure ImmichId where
  id : Str
deriving DecidableEq, Repr

def ImmichId.isSafe (i : ImmichId) : Bool :=
  idIsSafe i.id

/-- `impl TryFrom<String> for Id` (`src/utils.rs:189`). -/
def idTryFrom (s : Str) : Except ImmichError ImmichId :=
  let x : ImmichId := ⟨s⟩
  if x.isSafe then Except.ok x else Except.error ImmichError.InvalidId

/-- The spec's §3 shape for ids, as amended: 36 bytes long, every char
alphanumeric, except that the chars at positions 8, 13, 18 and 23 may
instead be `'-'`. -/
def idShapeOk (l : Str) : Prop :=
  utf8Len l = 36 ∧
    ∀ p ∈ l.enum,
      rustIsAlphanumeric p.2 = true ∨ (p.1 ∈ ([8, 13, 18, 23] : List Nat) ∧ p.2 = '-')


/-! ## Takeout planner (`src/takeout.rs`, `src/takeout/media.rs`) -/

/-- `HandleEdited` policy (`src/takeout.rs:90`). -/
inductive HandleEdited where
  | PreferEdited
  | UseBoth
  | PreferOriginal
deriving DecidableEq, Repr

def HandleEdited.useEdited (p : HandleEdited) : Bool :=
  p ≠ HandleEdited.PreferOriginal

def HandleEdited.useOriginal (p : HandleEdited) : Bool :=
  p ≠ HandleEdited.PreferEdited

/-- `Media` (`src/takeout/media.rs`).  `dateTaken` is the sidecar Unix
timestamp (seconds). -/
structure Media where
  dateTaken : Option Int
  name : Str
  edited : Bool
  original : Bool
  albums : List Str
deriving DecidableEq, Repr

def Media.fromOriginal (name album : Str) : Media :=
  ⟨none, name, false, true, [album]⟩

def Media.fromEdited (name album : Str) : Media :=
  ⟨none, name, true, false, [album]⟩

def Media.fromMetadata (name album : Str) (d : Int) : Media :=
  ⟨some d, name, false, false, [album]⟩

/-- `MediaStore` (`src/takeout/media.rs`): a map from canonical name to
`Media`, embedded as an association list with unique keys.  The `HashMap`'s
unspecified iteration order is modelled by insertion order. -/
abbrev MediaStore := List (Str × Media)

def storeGet (store : MediaStore) (k : Str) : Option Media :=
  (store.find? (fun kv => kv.1 = k)).map (fun kv => kv.2)

/-- `HashMap::entry(k).and_modify(f).or_insert(m)`. -/
def storeAdjustOrInsert (store : MediaStore) (k : Str) (f : Media → Media)
    (m : Media) : MediaStore :=
  if (store.find? (fun kv => kv.1 = k)).isSome then
    store.map (fun kv => if kv.1 = k then (kv.1, f kv.2) else kv)
  else
    store ++ [(k, m)]

/-- `MediaStore::add_metadata` (`src/takeout/media.rs:89`). -/
def addMetadata (store : MediaStore) (f : Filename) (d : Int) : MediaStore :=
  storeAdjustOrInsert store f.name
    (fun m => { m with dateTaken := some d, albums := m.albums ++ [f.album] })
    (Media.fromMetadata f.name f.album d)

/-- `MediaStore::add_original` (`src/takeout/media.rs:103`). -/
def addOriginal (store : MediaStore) (f : Filename) : MediaStore :=
  storeAdjustOrInsert store f.name
    (fun m => { m with original := true, albums := m.albums ++ [f.album] })
    (Media.fromOriginal f.name f.album)

/-- `MediaStore::add_edited` (`src/takeout/media.rs:116`). -/
def addEdited (store : MediaStore) (f : Filename) : MediaStore :=
  storeAdjustOrInsert store f.name
    (fun m => { m with edited := true, albums := m.albums ++ [f.album] })
    (Media.fromEdited f.name f.album)

/-- One tar entry of the archive, as the planner sees it: its path and the
outcome of `metadata::parse` on its contents (`some ts` for a sidecar whose
JSON parses to `photoTakenTime.timestamp = ts`; `none` when parsing fails or
for non-sidecar payloads). -/
structure TarEntry where
  path : EntryPath
  sidecar : Option Int
deriving DecidableEq, Repr

/-- `Takeout::first_scan` (`src/takeout.rs:192`), folded from an initial
store.  A `Filename::try_from` failure on any single entry propagates via
`?` and aborts the whole scan; a sidecar parse failure (`sidecar = none` on
a `Metadata` entry) is silently ignored. -/
def firstScanFrom (policy : HandleEdited) (store : MediaStore) :
    List TarEntry → Except ParseError MediaStore
  | [] => Except.ok store
  | e :: rest =>
    match filenameTryFrom e.path with
    | Except.error err => Except.error err
    | Except.ok f =>
      let store2 :=
        match f.filetype with
        | FileType.Metadata =>
          match e.sidecar with
          | some d => addMetadata store f d
          | none => store
        | FileType.Edited => if policy.useEdited then addEdited store f else store
        | FileType.Original => addOriginal store f
        | FileType.Unknown => store
      firstScanFrom policy store2 rest

def firstScan (entries : List TarEntry) (policy : HandleEdited) :
    Except ParseError MediaStore :=
  firstScanFrom policy [] entries

/-- The data of a `Record` (`src/takeout.rs:410`) that is observable through
its accessors: the borrowed `Media` fields. -/
structure Rec where
  name : Str
  dateTaken : Option Int
  edited : Bool
  original : Bool
  albums : List Str
deriving DecidableEq, Repr

/-- `Record::try_from((&MediaStore, Entry))` (`src/takeout.rs:487`): look the
canonical name up in the store.  The source `.expect`s the lookup; the
fallback row here is unreachable whenever the store was built by pass 1
over the same entries. -/
def recordOfName (store : MediaStore) (n : Str) : Rec :=
  match storeGet store n with
  | some m => ⟨m.name, m.dateTaken, m.edited, m.original, m.albums⟩
  | none => ⟨n, none, false, false, []⟩

/-- `Iter::edited_exists` (`src/takeout.rs:354`); the source `.expect`s the
lookup, unreachable under a pass-1 store over the same entries. -/
def editedExists (store : MediaStore) (f : Filename) : Bool :=
  ((storeGet store f.name).map Media.edited).getD false

/-- One step of the pass-2 iterator `Iter::next` (`src/takeout.rs:386`):
whether a given entry makes `next` emit a record, and which one.  Metadata
and Unknown entries are skipped; an `Original` entry is emitted when no
edited companion exists or the policy uses originals; an `Edited` entry is
emitted when the policy uses edited files.  (The source `.unwrap()`s the
classification in pass 2; the `none` fallback is unreachable whenever pass 1
succeeded on the same entries.) -/
def emitEntry (store : MediaStore) (policy : HandleEdited) (e : TarEntry) :
    Option Rec :=
  match filenameTryFrom e.path with
  | Except.error _ => none
  | Except.ok f =>
    match f.filetype with
    | FileType.Metadata => none
    | FileType.Unknown => none
    | FileType.Original =>
      if !editedExists store f || policy.useOriginal then
        some (recordOfName store f.name)
      else none
    | FileType.Edited =>
      if policy.useEdited then some (recordOfName store f.name) else none

/-- The full pass-2 run: `Takeout::records()` iterated to exhaustion. -/
def recordsEmitted (store : MediaStore) (policy : HandleEdited)
    (entries : List TarEntry) : List Rec :=
  entries.filterMap (emitEntry store policy)

/-- The per-entry emission predicate of the pass-2 iterator: an entry yields
a record exactly when it classifies as `Original` with no edited companion
in the store or with a policy that uses originals, or as `Edited` with a
policy that uses edited files. -/
def emitsRecord (store : MediaStore) (policy : HandleEdited) (e : TarEntry) :
    Bool :=
  match filenameTryFrom e.path with
  | Except.error _ => false
  | Except.ok f =>
    match f.filetype with
    | FileType.Metadata => false
    | FileType.Unknown => false
    | FileType.Original => !editedExists store f || policy.useOriginal
    | FileType.Edited => policy.useEdited

/-- `Takeout::albums` (`src/takeout.rs:258`): per album name, the list of
canonical names of the media appearing under it (duplicates preserved,
one push per album occurrence). -/
def assocPushName (albums : List (Str × List Str)) (album : Str) (n : Str) :
    List (Str × List Str) :=
  if (albums.find? (fun kv => kv.1 = album)).isSome then
    albums.map (fun kv => if kv.1 = album then (kv.1, kv.2 ++ [n]) else kv)
  else
    albums ++ [(album, [n])]

def takeoutAlbums (store : MediaStore) : List (Str × List Str) :=
  store.foldl
    (fun acc kv => kv.2.albums.foldl (fun acc2 a => assocPushName acc2 a kv.2.name) acc)
    []

/-! ## Upload data model (`src/api/upload.rs`, `src/api/requests.rs`,
`src/asset.rs`, `src/album.rs`) -/

/-- Upload response `Status` (`src/api/upload.rs:14`). -/
inductive Status where
  | Created
  | Duplicate
  | Failure
deriving DecidableEq, Repr

/-- Modelled from the spec: `AssetId` is re-exported from `src/asset.rs`,
whose current revision is not among the provided sources (the provided
`asset.rs` predates it); per the spec it is the opaque server id (`remote_id`,
"empty until uploaded"), interchangeable with `Id` — `Uploader::recreate_albums`
stores `&AssetId` values in a `HashMap<&str, &Id>`. -/
abbrev AssetId := ImmichId

/-- `Uploaded` (`src/api/upload.rs:38`). -/
structure Uploaded where
  status : Status
  id : AssetId
  deviceAssetId : Str
deriving DecidableEq, Repr

/-- `Uploaded::from_failure` (`src/api/upload.rs:46`): a `Failure` row with
the default (empty) id and the originating device asset id. -/
def Uploaded.fromFailure (d : Str) : Uploaded :=
  ⟨Status.Failure, ⟨[]⟩, d⟩

/-- `AssetRemoteStatus` (`src/asset.rs`). -/
inductive AssetRemoteStatus where
  | Unknown
  | Present
  | Absent
deriving DecidableEq, Repr

/-- The slice of `Asset` (`src/asset.rs`) that the verified operations
read: the server id string, the client-side device asset id and the remote
status (payload bytes, timestamps and the rest do not influence the claims
and are carried opaquely by the abstract upload outcome below). -/
structure Asset where
  id : Str
  deviceAssetId : Str
  remoteStatus : AssetRemoteStatus
deriving DecidableEq, Repr

/-- Modelled from the spec: §4.D "Conversion Record → Asset:
`device_asset_id ← name()`" — the `TryFrom<Record> for Asset` impl lives in
the current `src/asset.rs`, which is not among the provided sources. -/
def assetFromRecord (r : Rec) : Asset :=
  ⟨[], r.name, AssetRemoteStatus.Unknown⟩

/-- `AssetMoveError` (`src/api/requests.rs:45`). -/
inductive AssetMoveError where
  | Duplicate
  | NoPermission
  | NotFound
  | Unknown
  | UploadFailed
deriving DecidableEq, Repr

/-- `MovedAsset` (`src/api/requests.rs:59`). -/
structure MovedAsset where
  error : Option AssetMoveError
  id : AssetId
  success : Bool
deriving DecidableEq, Repr

/-- `MovedAsset::new` (`src/api/requests.rs:66`). -/
def MovedAsset.new (id : AssetId) (success : Bool) : MovedAsset :=
  if success then ⟨none, id, true⟩ else ⟨some AssetMoveError.Unknown, id, false⟩

/-- `MovedAsset::from_failed_upload` (`src/api/requests.rs:82`). -/
def MovedAsset.fromFailedUpload (id : AssetId) : MovedAsset :=
  ⟨some AssetMoveError.UploadFailed, id, false⟩

/-- The slice of `Album` (`src/album.rs:31`) the verified operations read. -/
structure Album where
  albumName : Str
  albumId : ImmichId
deriving DecidableEq, Repr

/-- The server side of `PUT /albums/:id/assets`, abstracted: given the album
id and the submitted asset ids, the response decoded by `Album::add_assets`.
An `Except.error` covers non-200 statuses, transport failures and undecodable
bodies alike. -/
abbrev PutAssetsOracle := ImmichId → List AssetId → Except ImmichError (List MovedAsset)

/-- The client side of `Album::get_or_create` (`src/album.rs:107`),
abstracted over the server: the resulting album, or any of the failure modes
of `GET /albums` + `POST /albums`. -/
abbrev GetOrCreateOracle := Str → Except ImmichError Album

/-- `Album::add_assets` (`src/album.rs:150`): the album id must pass the
shape check before any network I/O, else `InvalidUrl`. -/
def albumAddAssets (oracle : PutAssetsOracle) (album : Album)
    (ids : List AssetId) : Except ImmichError (List MovedAsset) :=
  if !album.albumId.isSafe then
    Except.error (ImmichError.InvalidUrl "Album has an invalid Id".data)
  else
    oracle album.albumId ids

/-- `Album::add_uploaded` (`src/album.rs:175`): submit the non-`Failure`
ids, then extend the server's list with one `UploadFailed` `MovedAsset`
per `Failure` row (carrying that row's — empty — id). -/
def albumAddUploaded (oracle : PutAssetsOracle) (album : Album)
    (results : List Uploaded) : Except ImmichError (List MovedAsset) :=
  let iterSuccess := results.filterMap fun u =>
    if u.status = Status.Failure then none else some u.id
  let iterFailed := results.filterMap fun u =>
    if u.status = Status.Failure then some (MovedAsset.fromFailedUpload u.id) else none
  (albumAddAssets oracle album iterSuccess).map fun moved => moved ++ iterFailed

/-- The per-asset work done by one engine worker
(`src/api/upload.rs:139`): run the single-asset upload; on any error push
`Uploaded::from_failure(asset.device_asset_id)` instead.  The single-asset
upload itself (`Asset::upload`, living in the unprovided current
`src/asset.rs`, behaving per spec §4.E) is abstracted as `uploadRes`. -/
def uploadOne (uploadRes : Asset → Except ImmichError Uploaded) (a : Asset) :
    Uploaded :=
  match uploadRes a with
  | Except.ok u => u
  | Except.error _ => Uploaded.fromFailure a.deviceAssetId

/-! ## Parallel upload engine (`src/api/upload.rs:112`)

`ParallelUpload::post` is a bounded work channel of capacity `2·threads`
feeding `threads` workers, whose outputs an unbounded result channel carries
to a collector thread.  The possible executions are modelled as a small-step
relation: the producer moves iterator items into the work queue while it has
room, closes the queue when the iterator is exhausted, a worker picks an
item up (at most `threads` in flight) and later delivers its `uploadOne`
outcome to the collector's vector.  The vector returned by a completed run
is any `results` reachable with everything drained. -/

structure EngineState where
  pending : List Asset
  queue : List Asset
  inflight : Multiset Asset
  results : List Uploaded
  closed : Bool

/-- One scheduler step of the engine pipeline, for worker body `f`, work
channel capacity `cap` and `nw` worker threads. -/
inductive EngineStep (f : Asset → Uploaded) (cap nw : Nat) :
    EngineState → EngineState → Prop where
  | produce (a : Asset) (rest queue : List Asset) (infl : Multiset Asset)
      (res : List Uploaded)
      (hq : queue.length < cap) :
      EngineStep f cap nw ⟨a :: rest, queue, infl, res, false⟩
        ⟨rest, queue ++ [a], infl, res, false⟩
  | close (queue : List Asset) (infl : Multiset Asset) (res : List Uploaded) :
      EngineStep f cap nw ⟨[], queue, infl, res, false⟩
        ⟨[], queue, infl, res, true⟩
  | take (a : Asset) (pending rest : List Asset) (infl : Multiset Asset)
      (res : List Uploaded) (closed : Bool)
      (hw : Multiset.card infl < nw) :
      EngineStep f cap nw ⟨pending, a :: rest, infl, res, closed⟩
        ⟨pending, rest, a ::ₘ infl, res, closed⟩
  | finish (a : Asset) (pending queue : List Asset) (infl : Multiset Asset)
      (res : List Uploaded) (closed : Bool) :
      EngineStep f cap nw ⟨pending, queue, a ::ₘ infl, res, closed⟩
        ⟨pending, queue, infl, res ++ [f a], closed⟩

/-- The state in which `ParallelUpload::post` starts: all assets pending. -/
def engineInit (assets : List Asset) : EngineState :=
  ⟨assets, [], 0, [], false⟩

/-- A state from which `post` returns: channel closed and fully drained. -/
def engineDone (s : EngineState) : Prop :=
  s.closed = true ∧ s.pending = [] ∧ s.queue = [] ∧ s.inflight = 0

/-- One asset and a server that answers `created`, used to instantiate
concrete engine runs. -/
def engineWitnessAsset : Asset :=
  ⟨[], "a".data, AssetRemoteStatus.Unknown⟩

def engineWitnessUpload : Asset → Except ImmichError Uploaded :=
  fun a => Except.ok ⟨Status.Created, ⟨[]⟩, a.deviceAssetId⟩

/-! ## Takeout uploader facade (`src/takeout/upload.rs`) -/

/-- The `device_asset_id → asset id` lookup built by
`Uploader::recreate_albums` (`src/takeout/upload.rs:286`): `HashMap::insert`
over the non-`Failure` rows, later rows overwriting earlier ones. -/
def filename2assetid (uploaded : List Uploaded) : List (Str × AssetId) :=
  uploaded.foldl
    (fun tbl u =>
      if u.status = Status.Created ∨ u.status = Status.Duplicate then
        if (tbl.find? (fun kv => kv.1 = u.deviceAssetId)).isSome then
          tbl.map (fun kv => if kv.1 = u.deviceAssetId then (kv.1, u.id) else kv)
        else tbl ++ [(u.deviceAssetId, u.id)]
      else tbl)
    []

def lookupDevice (tbl : List (Str × AssetId)) (d : Str) : Option AssetId :=
  ((tbl.find? (fun kv => kv.1 = d)).map (fun kv => kv.2))

/-- `Uploader::recreate_albums` (`src/takeout/upload.rs:271`): for every
album of the archive, resolve its device ids against the uploaded table;
create-or-get the album and add the resolved ids; on either failure emit one
synthesised `MovedAsset::new(id, false)` per *resolved* id instead.  Device
ids that resolve to nothing (never uploaded, or failed) contribute no row
anywhere.  This is the body of the per-album loop, folded over the album
aggregation in `recreateAlbums` below. -/
def recreateAlbumStep (tbl : List (Str × AssetId)) (getOrCreate : GetOrCreateOracle)
    (putOracle : PutAssetsOracle) (acc : List MovedAsset) (kv : Str × List Str) :
    List MovedAsset :=
  let resolved := kv.2.filterMap (lookupDevice tbl)
  match getOrCreate kv.1 with
  | Except.ok album =>
    match albumAddAssets putOracle album resolved with
    | Except.ok result => acc ++ result
    | Except.error _ => acc ++ resolved.map (fun i => MovedAsset.new i false)
  | Except.error _ => acc ++ resolved.map (fun i => MovedAsset.new i false)

def recreateAlbums (store : MediaStore) (uploaded : List Uploaded)
    (getOrCreate : GetOrCreateOracle) (putOracle : PutAssetsOracle) :
    List MovedAsset :=
  (takeoutAlbums store).foldl
    (recreateAlbumStep (filename2assetid uploaded) getOrCreate putOracle) []

/-- `Uploader::upload` (`src/takeout/upload.rs:240`) composed with the
`Uploader::new` pass-1 scan, for one complete run: filter pass-2 records and
convert them to assets, create the fixed `"Google Takout Import"` album, run
the engine (this model instantiates the engine's nondeterministic completion
order with submission order — the facade claims below are order-independent,
and any refuted statement is refuted on this legitimately schedulable run),
add everything to the import album through `Album::add_uploaded` — whose
returned vector the source *discards*, keeping only its error — and finally
return `recreate_albums`. -/
def uploaderUpload (entries : List TarEntry) (policy : HandleEdited)
    (filterRec : Rec → Bool) (uploadRes : Asset → Except ImmichError Uploaded)
    (getOrCreate : GetOrCreateOracle) (putOracle : PutAssetsOracle) :
    Except ImmichError (List MovedAsset) := do
  let store ← (firstScan entries policy).mapError immichErrorOfParseError
  let recs := (recordsEmitted store policy entries).filter filterRec
  let assets := recs.map assetFromRecord
  let album ← getOrCreate "Google Takout Import".data
  let uploaded := assets.map (uploadOne uploadRes)
  let _ ← albumAddUploaded putOracle album uploaded
  Except.ok (recreateAlbums store uploaded getOrCreate putOracle)

/-! ## Bulk pre-check (`src/api/bulk_check.rs`) -/

inductive BulkCheckAction where
  | Accept
  | Reject
deriving DecidableEq, Repr

/-- `impl From<BulkCheckAction> for AssetRemoteStatus`
(`src/api/bulk_check.rs:19`). -/
def remoteStatusOfAction : BulkCheckAction → AssetRemoteStatus
  | BulkCheckAction.Accept => AssetRemoteStatus.Absent
  | BulkCheckAction.Reject => AssetRemoteStatus.Present

structure BulkCheckResult where
  resultId : Str
  action : BulkCheckAction
deriving DecidableEq, Repr

/-- Rust's `Iterator::collect` through an `&mut I` reference: it drains the
iterator, yielding the collected items and the now-exhausted iterator. -/
def drainIter (l : List Asset) : List Asset × List Asset :=
  (l, [])

/-- `BulkUploadCheck::post` (`src/api/bulk_check.rs:88`), for an HTTP
response already decoded to `(status, results)`.  The request is collected
*through the `&mut` iterator* (`assets.map(..).collect()`), after which
`assets.len()` is the length of the exhausted iterator and `zip(assets, ..)`
zips from the exhausted iterator.  The returned list records the
`remote_status` writes the call performs, as `(asset id, new status)`
pairs. -/
def bulkUploadCheckPost (assets : List Asset) (status : Nat)
    (results : List BulkCheckResult) :
    Except ImmichError (List (Str × AssetRemoteStatus)) :=
  let drained := drainIter assets
  let _data := drained.1.map (fun a => a.id)
  let iter := drained.2
  if status ≠ 200 then Except.error (ImmichError.Status status [])
  else if iter.length ≠ results.length then Except.error ImmichError.InvalidResponse
  else
    Except.ok ((iter.zip results).filterMap fun p =>
      if p.1.id = p.2.resultId then some (p.1.id, remoteStatusOfAction p.2.action)
      else none)

/-! ## Helper lemmas -/

theorem lastIdxOf_eq_none_iff (c : Char) (l : Str) :
    lastIdxOf c l = none ↔ c ∉ l := by
  induction l with
  | nil => simp [lastIdxOf]
  | cons a as ih =>
    cases h : lastIdxOf c as with
    | some i =>
      have hmem : c ∈ as := by
        by_contra hc
        rw [ih.mpr hc] at h
        exact Option.noConfusion h
      simp [lastIdxOf, h, hmem]
    | none =>
      have hnm : c ∉ as := ih.mp h
      by_cases hac : a = c
      · simp [lastIdxOf, h, hac]
      · have hca : ¬c = a := fun h2 => hac h2.symm
        simp [lastIdxOf, h, hac, hnm, hca]

theorem normalizeDuplicates_id_of_getLast (l : Str)
    (h : l.getLast? ≠ some ')') : normalizeDuplicates l = l := by
  simp [normalizeDuplicates, h]

theorem normalizeDuplicates_id_of_no_lparen (l : Str)
    (h : lastIdxOf '(' l = none) : normalizeDuplicates l = l := by
  unfold normalizeDuplicates
  by_cases h1 : l.getLast? = some ')'
  · simp [h1, h]
  · simp [h1]

/-! ## Claim C5 -/

/-- C5 (amended): duplicate-suffix normalisation is idempotent on every
string whose once-normalised form does not both end with `')'` and contain a
`'('` — in particular whenever the first application yields a string not
ending in `')'`.  (Unrestricted idempotence fails, see the
counterexample: dropping a trailing parenthesised suffix can expose an
earlier one.) -/
theorem claim_C5_amended (l : Str)
    (h : ¬((normalizeDuplicates l).getLast? = some ')' ∧
        lastIdxOf '(' (normalizeDuplicates l) ≠ none)) :
    normalizeDuplicates (normalizeDuplicates l) = normalizeDuplicates l := by
  by_cases h1 : (normalizeDuplicates l).getLast? = some ')'
  · have h2 : lastIdxOf '(' (normalizeDuplicates l) = none := by
      by_contra hc
      exact h ⟨h1, hc⟩
    exact normalizeDuplicates_id_of_no_lparen _ h2
  · exact normalizeDuplicates_id_of_getLast _ h1

/-- C5 witness: the amended statement applied to the scenario string
`IMG_20131023_123651.jpg(1)`. -/
theorem claim_C5_witness :
    ¬((normalizeDuplicates "IMG_20131023_123651.jpg(1)".data).getLast? = some ')' ∧
        lastIdxOf '(' (normalizeDuplicates "IMG_20131023_123651.jpg(1)".data) ≠ none) ∧
    normalizeDuplicates (normalizeDuplicates "IMG_20131023_123651.jpg(1)".data) =
      normalizeDuplicates "IMG_20131023_123651.jpg(1)".data :=
  ⟨by decide, claim_C5_amended _ (by decide)⟩

/-- C5 counterexample: the claim `normalize (normalize s) = normalize s` for
*every* string fails at `s = "()()"`: one application yields `"()"`, a second
application yields `""`. -/
theorem claim_C5_counterexample :
    normalizeDuplicates (normalizeDuplicates "()()".data) ≠
      normalizeDuplicates "()()".data := by decide

/-! ## Claim C10 -/

/-- C10: for every string that ends with `')'`, contains `'('` and contains
no `'.'`, `normalize_duplicates` drops the trailing parenthesised suffix
(everything from the last `'('` on) entirely. -/
theorem claim_C10 (l : Str) (h1 : l.getLast? = some ')') (h2 : '(' ∈ l)
    (h3 : '.' ∉ l) :
    normalizeDuplicates l = l.take ((lastIdxOf '(' l).getD 0) := by
  obtain ⟨i, hi⟩ : ∃ i, lastIdxOf '(' l = some i := by
    cases hop : lastIdxOf '(' l with
    | none => exact absurd ((lastIdxOf_eq_none_iff _ _).mp hop) (by simp [h2])
    | some i => exact ⟨i, rfl⟩
  have hstem : lastIdxOf '.' (l.take i) = none := by
    rw [lastIdxOf_eq_none_iff]
    intro hmem
    exact h3 (List.take_subset i l hmem)
  simp [normalizeDuplicates, h1, hi, hstem]

/-- C10 witness: `"foo(1)"` becomes `"foo"`. -/
theorem claim_C10_witness :
    ("foo(1)".data.getLast? = some ')' ∧ '(' ∈ "foo(1)".data ∧
      '.' ∉ "foo(1)".data) ∧
    normalizeDuplicates "foo(1)".data =
      "foo(1)".data.take ((lastIdxOf '(' "foo(1)".data).getD 0) ∧
    normalizeDuplicates "foo(1)".data = "foo".data :=
  ⟨by decide, claim_C10 _ (by decide) (by decide) (by decide), by decide⟩

/-! ## Claim C4 -/

/-- C4 (amended): `Id::try_from` accepts exactly the strings of byte length
36 all of whose chars are alphanumeric, except that the chars at positions
8, 13, 18 and 23 may instead be `'-'` (the validator does *not* force a
`'-'` at those positions); it returns `InvalidId` exactly on the rest. -/
theorem claim_C4_amended (l : Str) :
    (idTryFrom l = Except.ok ⟨l⟩ ↔ idShapeOk l) ∧
    (idTryFrom l = Except.error ImmichError.InvalidId ↔ ¬idShapeOk l) := by
  have hsafe : idIsSafe l = true ↔ idShapeOk l := by
    unfold idIsSafe idShapeOk
    by_cases h : utf8Len l = 36
    · simp only [h, ne_eq, not_true_eq_false, if_false, true_and,
        List.all_eq_true]
      refine forall_congr' fun p => imp_congr_right fun _ => ?_
      simp only [Bool.or_eq_true, Bool.and_eq_true, beq_iff_eq,
        List.mem_cons, List.not_mem_nil, or_false]
      tauto
    · simp [h]
  by_cases hs : idIsSafe l = true
  · simp [idTryFrom, ImmichId.isSafe, hs, hsafe.mp hs]
  · have hns : ¬idShapeOk l := fun hsh => hs (hsafe.mpr hsh)
    simp only [idTryFrom, ImmichId.isSafe] at *
    simp [hs, hns]

/-- C4 counterexample: the claim requires `'-'` at positions 8, 13, 18 and
23, but the validator accepts a string of 36 `'a'`s, whose char at position
8 is not `'-'` — so `Id::try_from` does *not* return `InvalidId` on all
strings outside the claimed set. -/
theorem claim_C4_counterexample :
    idTryFrom (List.replicate 36 'a') = Except.ok ⟨List.replicate 36 'a'⟩ ∧
    (List.replicate 36 'a').get? 8 ≠ some '-' := by decide

/-! ## Claim C7 -/

/-- C7 (amended): during pass 1, only *sidecar* parse failures are ignored
per entry (the metadata entry contributes nothing and the scan continues);
a filename-classification failure on any single entry — e.g. a file without
an extension — aborts the whole scan with that `ParseError`, which crosses
the public boundary as `InvalidTakeoutArchive`, exactly like a stream-level
I/O error. -/
theorem claim_C7_amended :
    (∀ (policy : HandleEdited) (store : MediaStore) (e : TarEntry)
        (rest : List TarEntry) (f : Filename),
        filenameTryFrom e.path = Except.ok f →
        f.filetype = FileType.Metadata →
        e.sidecar = none →
        firstScanFrom policy store (e :: rest) = firstScanFrom policy store rest) ∧
    (∀ (policy : HandleEdited) (store : MediaStore) (e : TarEntry)
        (rest : List TarEntry) (err : ParseError),
        filenameTryFrom e.path = Except.error err →
        firstScanFrom policy store (e :: rest) = Except.error err) ∧
    (∀ err : ParseError, immichErrorOfParseError err = ImmichError.InvalidTakeoutArchive) := by
  refine ⟨?_, ?_, fun _ => rfl⟩
  · intro policy store e rest f h1 h2 h3
    simp [firstScanFrom, h1, h2, h3]
  · intro policy store e rest err h
    simp [firstScanFrom, h]

/-- C7 witness: a sidecar parse failure on `A/a.jpg.json` is skipped, while
the extension-less entry `Album1/README` aborts the scan. -/
theorem claim_C7_witness :
    (filenameTryFrom (TarEntry.mk ["A".data, "a.jpg.json".data] none).path =
        Except.ok ⟨"a.jpg".data, "A".data, FileType.Metadata⟩) ∧
    firstScanFrom HandleEdited.PreferEdited []
        [⟨["A".data, "a.jpg.json".data], none⟩] =
      firstScanFrom HandleEdited.PreferEdited [] [] ∧
    firstScanFrom HandleEdited.PreferEdited []
        [⟨["Album1".data, "README".data], none⟩] =
      Except.error (ParseError.FileNameError "File does not have an extension".data) :=
  ⟨by decide,
   claim_C7_amended.1 HandleEdited.PreferEdited [] ⟨["A".data, "a.jpg.json".data], none⟩
     [] ⟨"a.jpg".data, "A".data, FileType.Metadata⟩ (by decide) (by decide) (by decide),
   claim_C7_amended.2.1 HandleEdited.PreferEdited [] ⟨["Album1".data, "README".data], none⟩
     [] (ParseError.FileNameError "File does not have an extension".data) (by decide)⟩

/-- C7 counterexample: the claim says an entry whose filename cannot be
classified is dropped while the scan completes over the rest; in fact one
extension-less entry makes `first_scan` fail outright (and the error maps
to `InvalidTakeoutArchive` at the public boundary). -/
theorem claim_C7_counterexample :
    firstScan [⟨["Album1".data, "README".data], none⟩] HandleEdited.PreferEdited =
      Except.error (ParseError.FileNameError "File does not have an extension".data) ∧
    immichErrorOfParseError
        (ParseError.FileNameError "File does not have an extension".data) =
      ImmichError.InvalidTakeoutArchive := by
  exact ⟨by decide, rfl⟩

/-! ## Claim C3 -/

theorem emitEntry_isSome (store : MediaStore) (policy : HandleEdited)
    (e : TarEntry) : (emitEntry store policy e).isSome = emitsRecord store policy e := by
  unfold emitEntry emitsRecord
  cases filenameTryFrom e.path with
  | error err => rfl
  | ok f =>
    obtain ⟨n, alb, ft⟩ := f
    cases ft with
    | Metadata => rfl
    | Unknown => rfl
    | Original =>
      dsimp only
      cases hb : (!editedExists store ⟨n, alb, FileType.Original⟩ || policy.useOriginal) <;>
        simp [hb]
    | Edited =>
      dsimp only
      cases hb : policy.useEdited <;> simp [hb]

theorem length_filterMap_eq_countP {α β : Type} (f : α → Option β)
    (l : List α) : (l.filterMap f).length = l.countP (fun a => (f a).isSome) := by
  induction l with
  | nil => rfl
  | cons a as ih =>
    cases h : f a <;>
      simp [List.filterMap_cons, List.countP_cons, h, ih]

/-- C3 (amended): the number of records emitted by pass 2 equals the number
of archive *entries* passing the per-entry rule — entries classified
`Original` whose canonical name has no edited companion in the store or
whose policy uses originals, plus entries classified `Edited` when the
policy uses edited files.  A canonical name contributes one record per such
entry, so possibly several (the name-level count of the original claim
undercounts, see the counterexample). -/
theorem claim_C3_amended (store : MediaStore) (policy : HandleEdited)
    (entries : List TarEntry) :
    (recordsEmitted store policy entries).length =
      entries.countP (emitsRecord store policy) := by
  rw [recordsEmitted, length_filterMap_eq_countP]
  exact List.countP_congr fun e _ => by rw [emitEntry_isSome store policy e]

/-- C3 counterexample: (i) an archive holding the single entry `A/a.jpg`
under `PreferEdited` emits one record, while the claim's name-level count —
`(original ∧ use_original) ∨ (edited ∧ use_edited)` — is `0` (the rule the
iterator really applies emits an original whenever no edited companion
exists, regardless of `use_original`); (ii) with `A/a.jpg` and `B/a.jpg`
one canonical name yields two records, against the claim's "at most one per
canonical name". -/
theorem claim_C3_counterexample :
    (¬ ∀ st : MediaStore,
        firstScan [⟨["A".data, "a.jpg".data], none⟩] HandleEdited.PreferEdited =
          Except.ok st →
        (recordsEmitted st HandleEdited.PreferEdited
            [⟨["A".data, "a.jpg".data], none⟩]).length =
          st.countP (fun kv =>
            (kv.2.original && HandleEdited.PreferEdited.useOriginal) ||
            (kv.2.edited && HandleEdited.PreferEdited.useEdited))) ∧
    ((firstScan [⟨["A".data, "a.jpg".data], none⟩, ⟨["B".data, "a.jpg".data], none⟩]
          HandleEdited.PreferOriginal).map fun st =>
        (recordsEmitted st HandleEdited.PreferOriginal
            [⟨["A".data, "a.jpg".data], none⟩, ⟨["B".data, "a.jpg".data], none⟩]).map
          Rec.name) =
      Except.ok ["a.jpg".data, "a.jpg".data] := by
  constructor
  · intro h
    exact absurd
      (h [("a.jpg".data, ⟨none, "a.jpg".data, false, true, ["A".data]⟩)] (by decide))
      (by decide)
  · decide

/-! ## Claim C6 -/

/-- C6: the claim fails because `BulkUploadCheck::post` consumes the `&mut`
iterator while collecting the request (`assets.map(..).collect()`), so the
subsequent `assets.len()` is the *exhausted* iterator's length `0`; with a
non-empty request and an HTTP-200 response of matching length the call
returns `InvalidResponse` instead of `Ok`, and no `remote_status` is ever
written (the zip runs over the exhausted iterator).  Evaluated here at a
one-asset request whose response is one matching `accept`. -/
theorem claim_C6_bug :
    bulkUploadCheckPost
        [⟨"3fa85f64-5717-4562-b3fc-2c963f66afa6".data, "a.jpg".data,
          AssetRemoteStatus.Unknown⟩] 200
        [⟨"3fa85f64-5717-4562-b3fc-2c963f66afa6".data, BulkCheckAction.Accept⟩] =
      Except.error ImmichError.InvalidResponse ∧
    ([⟨"3fa85f64-5717-4562-b3fc-2c963f66afa6".data, "a.jpg".data,
        AssetRemoteStatus.Unknown⟩] : List Asset).length =
      ([⟨"3fa85f64-5717-4562-b3fc-2c963f66afa6".data, BulkCheckAction.Accept⟩] :
        List BulkCheckResult).length := by
  exact ⟨by decide, rfl⟩

/-! ## Claim C8 -/

/-- The conserved quantity of the engine pipeline: the uploaded outcomes of
everything anywhere in flight, together with the delivered results. -/
def engineFootprint (f : Asset → Uploaded) (s : EngineState) : Multiset Uploaded :=
  (s.results : Multiset Uploaded) + (s.pending.map f : Multiset Uploaded) +
    (s.queue.map f : Multiset Uploaded) + s.inflight.map f

theorem engineStep_footprint {f : Asset → Uploaded} {cap nw : Nat}
    {s t : EngineState} (h : EngineStep f cap nw s t) :
    engineFootprint f t = engineFootprint f s := by
  cases h with
  | produce a rest queue infl res hq =>
    simp only [engineFootprint, List.map_append, List.map_cons, List.map_nil,
      ← Multiset.coe_add, Multiset.coe_singleton, Multiset.map_add,
      Multiset.map_singleton, ← Multiset.cons_coe, ← Multiset.singleton_add,
      Multiset.coe_nil, zero_add, add_zero]
    abel
  | close queue infl res => rfl
  | take a pending rest infl res closed hw =>
    simp only [engineFootprint, List.map_append, List.map_cons, List.map_nil,
      ← Multiset.coe_add, Multiset.coe_singleton, Multiset.map_add,
      Multiset.map_singleton, ← Multiset.cons_coe, ← Multiset.singleton_add,
      Multiset.coe_nil, zero_add, add_zero]
    abel
  | finish a pending queue infl res closed =>
    simp only [engineFootprint, List.map_append, List.map_cons, List.map_nil,
      ← Multiset.coe_add, Multiset.coe_singleton, Multiset.map_add,
      Multiset.map_singleton, ← Multiset.cons_coe, ← Multiset.singleton_add,
      Multiset.coe_nil, zero_add, add_zero]
    abel

theorem engineRun_footprint {f : Asset → Uploaded} {cap nw : Nat}
    {s t : EngineState}
    (h : Relation.ReflTransGen (EngineStep f cap nw) s t) :
    engineFootprint f t = engineFootprint f s := by
  induction h with
  | refl => rfl
  | tail _ hstep ih => rw [engineStep_footprint hstep, ih]

/-- C8: every completed run of the parallel upload engine returns a vector
with exactly one entry per input asset — the multiset of results is the
multiset of per-asset outcomes (`uploadOne`: the server's reply, or a
`Failure` substitute on transport error), whatever the interleaving, thread
count and channel capacity. -/
theorem claim_C8 (uploadRes : Asset → Except ImmichError Uploaded)
    (cap nw : Nat) (assets : List Asset) (s : EngineState)
    (hrun : Relation.ReflTransGen (EngineStep (uploadOne uploadRes) cap nw)
      (engineInit assets) s)
    (hdone : engineDone s) :
    s.results.length = assets.length ∧
    (s.results : Multiset Uploaded) =
      (assets.map (uploadOne uploadRes) : Multiset Uploaded) := by
  have hfp := engineRun_footprint hrun
  obtain ⟨h1, h2, h3, h4⟩ := hdone
  simp only [engineFootprint, engineInit, h2, h3, h4, List.map_nil,
    Multiset.coe_nil, Multiset.map_zero, add_zero, zero_add] at hfp
  refine ⟨?_, hfp⟩
  have := congrArg Multiset.card hfp
  simpa using this

/-- C8 witness: a one-asset run with one worker — produce, close, take,
finish — ends done with the single `created` outcome. -/
theorem claim_C8_witness :
    engineDone (⟨[], [], 0,
      [uploadOne engineWitnessUpload engineWitnessAsset], true⟩ : EngineState) ∧
    [uploadOne engineWitnessUpload engineWitnessAsset].length =
      [engineWitnessAsset].length ∧
    ([uploadOne engineWitnessUpload engineWitnessAsset] : Multiset Uploaded) =
      ([engineWitnessAsset].map (uploadOne engineWitnessUpload) :
        Multiset Uploaded) := by
  have step1 : EngineStep (uploadOne engineWitnessUpload) 2 1
      (engineInit [engineWitnessAsset])
      ⟨[], [engineWitnessAsset], 0, [], false⟩ :=
    EngineStep.produce engineWitnessAsset [] [] 0 [] (by decide)
  have step2 : EngineStep (uploadOne engineWitnessUpload) 2 1
      ⟨[], [engineWitnessAsset], 0, [], false⟩
      ⟨[], [engineWitnessAsset], 0, [], true⟩ :=
    EngineStep.close [engineWitnessAsset] 0 []
  have step3 : EngineStep (uploadOne engineWitnessUpload) 2 1
      ⟨[], [engineWitnessAsset], 0, [], true⟩
      ⟨[], [], {engineWitnessAsset}, [], true⟩ :=
    EngineStep.take engineWitnessAsset [] [] 0 [] true (by simp)
  have step4 : EngineStep (uploadOne engineWitnessUpload) 2 1
      ⟨[], [], {engineWitnessAsset}, [], true⟩
      ⟨[], [], 0, [uploadOne engineWitnessUpload engineWitnessAsset], true⟩ :=
    EngineStep.finish engineWitnessAsset [] [] 0 [] true
  have hrun := Relation.ReflTransGen.tail (Relation.ReflTransGen.tail
    (Relation.ReflTransGen.tail (Relation.ReflTransGen.tail
      Relation.ReflTransGen.refl step1) step2) step3) step4
  have hdone : engineDone (⟨[], [], 0,
      [uploadOne engineWitnessUpload engineWitnessAsset], true⟩ : EngineState) :=
    ⟨rfl, rfl, rfl, rfl⟩
  obtain ⟨hlen, hperm⟩ :=
    claim_C8 engineWitnessUpload 2 1 [engineWitnessAsset] _ hrun hdone
  exact ⟨hdone, hlen, hperm⟩

/-! ## Claim C9 -/

theorem containsSub_true_iff (p l : Str) : containsSub p l = true ↔ p <:+: l := by
  unfold containsSub
  rw [List.any_eq_true, List.infix_iff_prefix_suffix]
  constructor
  · rintro ⟨t, ht, hp⟩
    exact ⟨t, by simpa using hp, (List.mem_tails _ _).mp ht⟩
  · rintro ⟨t, hp, hs⟩
    exact ⟨t, (List.mem_tails _ _).mpr hs, by simpa using hp⟩

theorem containsSub_false_of_superstring (p q l : Str) (hpq : p <:+: q)
    (h : containsSub p l = false) : containsSub q l = false := by
  cases hq : containsSub q l with
  | false => rfl
  | true =>
    have : p <:+: l := hpq.trans ((containsSub_true_iff q l).mp hq)
    rw [(containsSub_true_iff p l).mpr this] at h
    exact h

theorem replaceAllAux_of_not_contains (pat rep : Str) (fuel : Nat) (l : Str)
    (h : containsSub pat l = false) : replaceAllAux pat rep fuel l = l := by
  induction fuel generalizing l with
  | zero => cases l <;> rfl
  | succ fuel ih =>
    cases l with
    | nil => rfl
    | cons c rest =>
      have hcons : containsSub pat (c :: rest) =
          (pat.isPrefixOf (c :: rest) || containsSub pat rest) := rfl
      rw [hcons] at h
      have h1 : pat.isPrefixOf (c :: rest) = false := (Bool.or_eq_false_iff.mp h).1
      have h2 : containsSub pat rest = false := (Bool.or_eq_false_iff.mp h).2
      simp [replaceAllAux, h1, ih rest h2]

theorem replaceAll_of_not_contains (pat rep l : Str)
    (h : containsSub pat l = false) : replaceAll pat rep l = l :=
  replaceAllAux_of_not_contains pat rep l.length l h

theorem lastIdxOf_append_cons (c : Char) (xs ys : Str) (h : c ∉ ys) :
    lastIdxOf c (xs ++ c :: ys) = some xs.length := by
  induction xs with
  | nil => simp [lastIdxOf, (lastIdxOf_eq_none_iff c ys).mpr h]
  | cons x xs ih => simp [lastIdxOf, ih]

theorem drop_append_cons (xs ys : Str) (c : Char) :
    (xs ++ c :: ys).drop (xs.length + 1) = ys := by
  have h1 : xs ++ c :: ys = (xs ++ [c]) ++ ys := by simp
  have h2 : xs.length + 1 = (xs ++ [c]).length := by simp
  rw [h1, h2, List.drop_left]

theorem extOf_append (base ext : Str) (hb : base ≠ []) (hdot : '.' ∉ ext) :
    extOf (base ++ '.' :: ext) = some ext := by
  unfold extOf
  rw [lastIdxOf_append_cons '.' base ext hdot]
  have hb0 : 0 < base.length := List.length_pos.mpr hb
  simp [hb0, drop_append_cons]

theorem getLast?_map_char (f : Char → Char) (l : Str) :
    (l.map f).getLast? = (l.getLast?).map f := by
  induction l with
  | nil => rfl
  | cons a as ih =>
    cases as with
    | nil => rfl
    | cons b bs => simpa using ih

theorem mediaExt_shape (ext : Str) (hm : lowerAscii ext ∈ mediaExtensionList) :
    ext ≠ [] ∧ ext.getLast? ≠ some ')' := by
  constructor
  · intro hq
    rw [hq] at hm
    revert hm
    decide
  · intro hc
    have h1 : (lowerAscii ext).getLast? = some (Char.toLower ')') := by
      rw [lowerAscii, getLast?_map_char, hc]
      rfl
    simp only [mediaExtensionList, List.mem_cons, List.not_mem_nil, or_false] at hm
    rcases hm with h | h | h | h | h | h | h | h | h | h <;>
      rw [h] at h1 <;> exact absurd h1 (by decide)

theorem getLast?_append_right (l₁ l₂ : Str) (h : l₂ ≠ []) :
    (l₁ ++ l₂).getLast? = l₂.getLast? := by
  rcases List.eq_nil_or_concat l₂ with rfl | ⟨l', a, rfl⟩
  · exact absurd rfl h
  · rw [List.concat_eq_append, ← List.append_assoc, List.getLast?_concat,
      List.getLast?_concat]

/-- C9 (amended): for a path `album/base.ext` with `ext` a media extension
(case-insensitive): (i) when `base.ext` contains none of the substrings
`edited`, `.json` and `.supplemental-metadata`, the classifier yields
exactly `(album, base.ext, Original)` — the extra proviso is needed because
the strips are unconditional substring replacements on the whole file name,
see the counterexample; (ii) when `base.ext` contains `edited` the kind is
`Edited`; (iii) for `ext = json` the kind is `Metadata` and the canonical
name is the file name stripped of `-edited`, `.supplemental-metadata` and
`.json` and then duplicate-suffix-normalised (the original claim omitted
the normalisation step). -/
theorem claim_C9_amended :
    (∀ album base ext : Str, base ≠ [] → '.' ∉ ext →
        lowerAscii ext ∈ mediaExtensionList →
        containsSub "edited".data (base ++ '.' :: ext) = false →
        containsSub ".json".data (base ++ '.' :: ext) = false →
        containsSub ".supplemental-metadata".data (base ++ '.' :: ext) = false →
        filenameTryFrom [album, base ++ '.' :: ext] =
          Except.ok ⟨base ++ '.' :: ext, album, FileType.Original⟩) ∧
    (∀ album base ext : Str, base ≠ [] → '.' ∉ ext →
        lowerAscii ext ∈ mediaExtensionList →
        containsSub "edited".data (base ++ '.' :: ext) = true →
        (filenameTryFrom [album, base ++ '.' :: ext]).map Filename.filetype =
          Except.ok FileType.Edited) ∧
    (∀ album base : Str, base ≠ [] →
        filenameTryFrom [album, base ++ ".json".data] =
          Except.ok
            ⟨normalizeDuplicates
                (replaceAll ".json".data []
                  (replaceAll ".supplemental-metadata".data []
                    (replaceAll "-edited".data [] (base ++ ".json".data)))),
              album, FileType.Metadata⟩) := by
  refine ⟨?_, ?_, ?_⟩
  · intro album base ext hb hdot hm hed hjs hsm
    obtain ⟨hne, hlastext⟩ := mediaExt_shape ext hm
    have hfn : pathFileName [album, base ++ '.' :: ext] = some (base ++ '.' :: ext) := rfl
    have hext : extOf (base ++ '.' :: ext) = some ext := extOf_append base ext hb hdot
    have hbind : (pathFileName [album, base ++ '.' :: ext]).bind extOf = some ext := by
      rw [hfn]
      exact hext
    have hnej : lowerAscii ext ≠ "json".data := by
      intro hq
      rw [hq] at hm
      revert hm
      decide
    have hcont : mediaExtensionList.contains (lowerAscii ext) = true := by
      simpa using hm
    have hft : fileTypeTryFrom [album, base ++ '.' :: ext] = Except.ok FileType.Original := by
      unfold fileTypeTryFrom
      rw [hbind]
      simp [hnej, hcont, hed, hfn, hm]
    have hpar : pathParentFileName [album, base ++ '.' :: ext] = some album := rfl
    have hced : containsSub "-edited".data (base ++ '.' :: ext) = false :=
      containsSub_false_of_superstring "edited".data "-edited".data _ (by decide) hed
    have hlast : (base ++ '.' :: ext).getLast? ≠ some ')' := by
      rw [getLast?_append_right base ('.' :: ext) (by simp)]
      rw [show ('.' :: ext).getLast? = (['.'] ++ ext).getLast? from rfl]
      rw [getLast?_append_right ['.'] ext hne]
      exact hlastext
    have hname : canonicalName (base ++ '.' :: ext) = base ++ '.' :: ext := by
      unfold canonicalName
      rw [replaceAll_of_not_contains _ [] _ hced,
        replaceAll_of_not_contains _ [] _ hsm,
        replaceAll_of_not_contains _ [] _ hjs]
      exact normalizeDuplicates_id_of_getLast _ hlast
    simp [filenameTryFrom, hft, hpar, hfn, hname]
  · intro album base ext hb hdot hm hed
    have hfn : pathFileName [album, base ++ '.' :: ext] = some (base ++ '.' :: ext) := rfl
    have hext : extOf (base ++ '.' :: ext) = some ext := extOf_append base ext hb hdot
    have hbind : (pathFileName [album, base ++ '.' :: ext]).bind extOf = some ext := by
      rw [hfn]
      exact hext
    have hnej : lowerAscii ext ≠ "json".data := by
      intro hq
      rw [hq] at hm
      revert hm
      decide
    have hcont : mediaExtensionList.contains (lowerAscii ext) = true := by
      simpa using hm
    have hft : fileTypeTryFrom [album, base ++ '.' :: ext] = Except.ok FileType.Edited := by
      unfold fileTypeTryFrom
      rw [hbind]
      simp [hnej, hcont, hed, hfn, hm]
    have hpar : pathParentFileName [album, base ++ '.' :: ext] = some album := rfl
    simp [filenameTryFrom, hft, hpar, hfn, Except.map]
  · intro album base hb
    have hfn : pathFileName [album, base ++ ".json".data] = some (base ++ ".json".data) := rfl
    have hext : extOf (base ++ ".json".data) = some "json".data :=
      extOf_append base "json".data hb (by decide)
    have hbind : (pathFileName [album, base ++ ".json".data]).bind extOf = some "json".data := by
      rw [hfn]
      exact hext
    have hj : lowerAscii "json".data = "json".data := by decide
    have hft : fileTypeTryFrom [album, base ++ ".json".data] = Except.ok FileType.Metadata := by
      unfold fileTypeTryFrom
      rw [hbind]
      simp [hj]
    have hpar : pathParentFileName [album, base ++ ".json".data] = some album := rfl
    simp [filenameTryFrom, hft, hpar, hfn, canonicalName]

/-- C9 witness: `album/photo.jpg` classifies as
`(album, photo.jpg, Original)`, `album/photo-edited.jpg` has kind `Edited`,
and `album/a.jpg.json` has kind `Metadata` with canonical name `a.jpg`. -/
theorem claim_C9_witness :
    ("photo".data ≠ [] ∧ '.' ∉ "jpg".data ∧
      lowerAscii "jpg".data ∈ mediaExtensionList ∧
      containsSub "edited".data ("photo".data ++ '.' :: "jpg".data) = false ∧
      containsSub ".json".data ("photo".data ++ '.' :: "jpg".data) = false ∧
      containsSub ".supplemental-metadata".data
        ("photo".data ++ '.' :: "jpg".data) = false) ∧
    filenameTryFrom ["album".data, "photo".data ++ '.' :: "jpg".data] =
      Except.ok ⟨"photo".data ++ '.' :: "jpg".data, "album".data, FileType.Original⟩ ∧
    (filenameTryFrom ["album".data, "photo-edited".data ++ '.' :: "jpg".data]).map
        Filename.filetype = Except.ok FileType.Edited ∧
    filenameTryFrom ["album".data, "a.jpg".data ++ ".json".data] =
      Except.ok
        ⟨normalizeDuplicates
            (replaceAll ".json".data []
              (replaceAll ".supplemental-metadata".data []
                (replaceAll "-edited".data [] ("a.jpg".data ++ ".json".data)))),
          "album".data, FileType.Metadata⟩ :=
  ⟨⟨by decide, by decide, by decide, by decide, by decide, by decide⟩,
   claim_C9_amended.1 "album".data "photo".data "jpg".data (by decide) (by decide)
     (by decide) (by decide) (by decide) (by decide),
   claim_C9_amended.2.1 "album".data "photo-edited".data "jpg".data (by decide)
     (by decide) (by decide) (by decide),
   claim_C9_amended.2.2 "album".data "a.jpg".data (by decide)⟩

/-- C9 counterexample: the claim promises `(album, base.ext, Original)` for
every media path whose base avoids `edited`, but `.json` is stripped as a
substring anywhere in the name: `album/a.json.jpg` classifies as `Original`
with canonical name `a.jpg`, not `a.json.jpg`. -/
theorem claim_C9_counterexample :
    filenameTryFrom ["album".data, "a.json.jpg".data] =
      Except.ok ⟨"a.jpg".data, "album".data, FileType.Original⟩ ∧
    "a.jpg".data ≠ "a.json.jpg".data := by
  exact ⟨by decide, by decide⟩

/-! ## Claim C1 -/

theorem recreateAlbumStep_length (tbl : List (Str × AssetId))
    (g : GetOrCreateOracle) (p : PutAssetsOracle)
    (hp : ∀ aid ids res, p aid ids = Except.ok res → res.length = ids.length)
    (acc : List MovedAsset) (kv : Str × List Str) :
    (recreateAlbumStep tbl g p acc kv).length =
      acc.length + (kv.2.filterMap (lookupDevice tbl)).length := by
  unfold recreateAlbumStep
  cases hg : g kv.1 with
  | error e => simp
  | ok album =>
    unfold albumAddAssets
    by_cases hs : album.albumId.isSafe
    · simp only [hs, Bool.not_true, Bool.false_eq_true, if_false]
      cases ho : p album.albumId (kv.2.filterMap (lookupDevice tbl)) with
      | ok res => simp [List.length_append, hp _ _ _ ho]
      | error e => simp
    · simp [hs]

theorem recreate_foldl_length (tbl : List (Str × AssetId))
    (g : GetOrCreateOracle) (p : PutAssetsOracle)
    (hp : ∀ aid ids res, p aid ids = Except.ok res → res.length = ids.length)
    (albums : List (Str × List Str)) :
    ∀ acc : List MovedAsset,
      (albums.foldl (recreateAlbumStep tbl g p) acc).length =
        acc.length +
          (albums.map fun kv => (kv.2.filterMap (lookupDevice tbl)).length).sum := by
  induction albums with
  | nil => intro acc; simp
  | cons kv rest ih =>
    intro acc
    simp only [List.foldl_cons, List.map_cons, List.sum_cons]
    rw [ih, recreateAlbumStep_length tbl g p hp acc kv]
    omega

/-- C1 (amended): whenever the server honours the per-id contract of
`PUT /albums/:id/assets` (one `MovedAsset` per submitted id), the facade's
returned vector contains exactly one entry per (album, resolved device id)
pair of the planner's album aggregation, where a device id is *resolved*
when the upload table maps it to a remote id — i.e. when its upload
succeeded.  Records whose upload failed (and the per-album duplicates of
ones that succeeded) make the vector's length differ from the number of
filtered records, see the counterexample. -/
theorem claim_C1_amended (store : MediaStore) (uploaded : List Uploaded)
    (g : GetOrCreateOracle) (p : PutAssetsOracle)
    (hp : ∀ aid ids res, p aid ids = Except.ok res → res.length = ids.length) :
    (recreateAlbums store uploaded g p).length =
      ((takeoutAlbums store).map fun kv =>
        (kv.2.filterMap (lookupDevice (filename2assetid uploaded))).length).sum := by
  unfold recreateAlbums
  rw [recreate_foldl_length _ g p hp]
  simp

/-- C1 witness: one uploaded asset in one album, `add_assets` failing, gives
one synthesised row — matching the (album, resolved id) count. -/
theorem claim_C1_witness :
    (∀ (aid : ImmichId) (ids : List AssetId) (res : List MovedAsset),
        (fun (_ : ImmichId) (_ : List AssetId) =>
            (Except.error ImmichError.InvalidResponse :
              Except ImmichError (List MovedAsset))) aid ids = Except.ok res →
        res.length = ids.length) ∧
    (recreateAlbums
        [("a.jpg".data, ⟨none, "a.jpg".data, false, true, ["A".data]⟩)]
        [⟨Status.Created, ⟨"3fa85f64-5717-4562-b3fc-2c963f66afa6".data⟩, "a.jpg".data⟩]
        (fun _ => Except.ok ⟨"A".data, ⟨"f0edb589-1312-4161-b41e-0a18f127b3dd".data⟩⟩)
        (fun _ _ => Except.error ImmichError.InvalidResponse)).length =
      ((takeoutAlbums
          [("a.jpg".data, ⟨none, "a.jpg".data, false, true, ["A".data]⟩)]).map
        fun kv =>
          (kv.2.filterMap (lookupDevice (filename2assetid
            [⟨Status.Created, ⟨"3fa85f64-5717-4562-b3fc-2c963f66afa6".data⟩,
              "a.jpg".data⟩]))).length).sum :=
  ⟨fun _ _ _ h => Except.noConfusion h,
   claim_C1_amended
     [("a.jpg".data, ⟨none, "a.jpg".data, false, true, ["A".data]⟩)]
     [⟨Status.Created, ⟨"3fa85f64-5717-4562-b3fc-2c963f66afa6".data⟩, "a.jpg".data⟩]
     (fun _ => Except.ok ⟨"A".data, ⟨"f0edb589-1312-4161-b41e-0a18f127b3dd".data⟩⟩)
     (fun _ _ => Except.error ImmichError.InvalidResponse)
     (fun _ _ _ h => Except.noConfusion h)⟩

/-- C1 counterexample: an archive with the single record `A/a.jpg`, an
all-pass filter and an upload that fails with HTTP 500 (albums and
`add_assets` succeeding) makes the facade return `Ok []`: the failed record
is *not* covered by a `success = false` entry, and the output length `0`
differs from the one filtered record. -/
theorem claim_C1_counterexample :
    uploaderUpload [⟨["A".data, "a.jpg".data], none⟩] HandleEdited.PreferEdited
        (fun _ => true) (fun _ => Except.error (ImmichError.Status 500 []))
        (fun _ => Except.ok ⟨"x".data, ⟨"f0edb589-1312-4161-b41e-0a18f127b3dd".data⟩⟩)
        (fun _ ids => Except.ok (ids.map fun i => MovedAsset.new i true)) =
      Except.ok [] ∧
    ((firstScan [⟨["A".data, "a.jpg".data], none⟩] HandleEdited.PreferEdited).map
        fun st =>
          ((recordsEmitted st HandleEdited.PreferEdited
              [⟨["A".data, "a.jpg".data], none⟩]).filter fun _ => true).length) =
      Except.ok 1 := by
  exact ⟨by decide, by decide⟩

/-! ## Claim C2 -/

/-- C2: with the engine having produced `K = 1` `Failure` (the single
record's upload answers HTTP 500), the facade's output contains zero
`MovedAsset`s with `error = UploadFailed` — not at least `K`.  The vector
holding exactly those entries is built by `Album::add_uploaded` inside
`upload_to_album` and then *discarded* at `src/takeout/upload.rs:263`;
`recreate_albums` never constructs an `UploadFailed` row, contradicting
`Uploader::upload`'s own documentation that failed uploads are "reported as
failed `MovedAsset`". -/
theorem claim_C2_bug :
    ((uploaderUpload [⟨["A".data, "a.jpg".data], none⟩] HandleEdited.PreferEdited
        (fun _ => true) (fun _ => Except.error (ImmichError.Status 500 []))
        (fun _ => Except.ok ⟨"x".data, ⟨"f0edb589-1312-4161-b41e-0a18f127b3dd".data⟩⟩)
        (fun _ ids => Except.ok (ids.map fun i => MovedAsset.new i true))).map
      fun res => res.countP fun m => m.error == some AssetMoveError.UploadFailed) =
      Except.ok 0 ∧
    ((firstScan [⟨["A".data, "a.jpg".data], none⟩] HandleEdited.PreferEdited).map
        fun st =>
          ((((recordsEmitted st HandleEdited.PreferEdited
                [⟨["A".data, "a.jpg".data], none⟩]).filter fun _ => true).map
              assetFromRecord).map
            (uploadOne fun _ => Except.error (ImmichError.Status 500 []))).countP
            fun u => u.status == Status.Failure) =
      Except.ok 1 := by
  exact ⟨by decide, by decide⟩
